import Mathlib

/-!
# Verification of the Motion SDK mock server (test/mock_sdk_server.py)

Shallow embedding of the mock multi-service protocol server from
test/mock_sdk_server.py (version 4.0; the near-duplicate test/test_server.py
version 3.0 differs only in the device-list XML string, embedded separately
as device_list_v3).

Bytes are modelled as natural numbers (values below 256 in every run of the
real program); byte strings are lists of naturals.  Socket reads are
modelled deterministically: recv(n) on a stream s returns the first
min(n, len s) bytes.  Sends are collected into a transcript, in call order.
The random source (random.randint) and the possible send failures
(BrokenPipeError / ConnectionAbortedError) are supplied as explicit oracle
arguments to the handler.
-/

namespace MockSDK

set_option maxRecDepth 8000

/-- Big-endian packing of a 32-bit unsigned integer, the header written by
struct.pack with format !I.  For arguments below 2^32 this agrees with the
Python call byte for byte. -/
def pack_u32be (n : Nat) : List Nat :=
  [n / 16777216 % 256, n / 65536 % 256, n / 256 % 256, n % 256]

/-- Big-endian unpacking of a byte string, struct.unpack with format !I on a
4-byte input. -/
def unpack_u32be (b : List Nat) : Nat :=
  b.foldl (fun acc x => 256 * acc + x) 0

/-- Handler.make_message: prefix the payload with its length as a 4-byte
big-endian unsigned integer. -/
def make_message (data : List Nat) : List Nat :=
  pack_u32be data.length ++ data

/-- Handler.read_message on the byte stream s: read a 4-byte header, reject
a declared length of 0 or above 65535, then read that many body bytes.
Returns none exactly where the Python code returns None: short header read,
out-of-range length, or short body read. -/
def read_message (s : List Nat) : Option (List Nat) :=
  if (s.take 4).length ≠ 4 then none
  else if unpack_u32be (s.take 4) = 0 ∨ unpack_u32be (s.take 4) > 65535 then none
  else if ((s.drop 4).take (unpack_u32be (s.take 4))).length ≠ unpack_u32be (s.take 4)
    then none
  else some ((s.drop 4).take (unpack_u32be (s.take 4)))

/-- ASCII bytes of the f-string prefix of the identity message,
the text before the service name. -/
def xml_svc_pre : List Nat :=
  [60, 63, 120, 109, 108, 32, 118, 101, 114, 115, 105, 111, 110, 61, 34, 49,
   46, 48, 34, 63, 62, 60, 115, 101, 114, 118, 105, 99, 101, 32, 110, 97,
   109, 101, 61, 34]

/-- ASCII bytes of the f-string suffix of the identity message, after the
service name. -/
def xml_svc_post : List Nat := [34, 47, 62]

/-- Service name selected from the port, mirroring the if/elif chain at the
top of Handler.handle; ports outside the five production ports get the
diagnostic name test. -/
def service_name (port : Nat) : List Nat :=
  if port = 32079 then [112, 114, 101, 118, 105, 101, 119]
  else if port = 32078 then [115, 101, 110, 115, 111, 114]
  else if port = 32077 then [114, 97, 119]
  else if port = 32076 then [99, 111, 110, 102, 105, 103, 117, 114, 97, 98,
    108, 101]
  else if port = 32075 then [99, 111, 110, 115, 111, 108, 101]
  else [116, 101, 115, 116]

/-- Whether the port is one of the five production service ports; every
other port falls through to the diagnostic else-branch of Handler.handle. -/
def is_production (port : Nat) : Bool :=
  port = 32079 || port = 32078 || port = 32077 || port = 32076 ||
  port = 32075

/-- The identity message written first on every session, the f-string with
the service name spliced in. -/
def identity_xml (port : Nat) : List Nat :=
  xml_svc_pre ++ service_name port ++ xml_svc_post

/-- ASCII bytes of the device-list message of mock_sdk_server.py
(version 4.0). -/
def device_list : List Nat :=
  [60, 63, 120, 109, 108, 32, 118, 101, 114, 115, 105, 111, 110, 61, 34, 49,
   46, 48, 34, 63, 62, 60, 110, 111, 100, 101, 32, 105, 100, 61, 34, 100,
   101, 102, 97, 117, 108, 116, 34, 32, 107, 101, 121, 61, 34, 48, 34, 62,
   60, 110, 111, 100, 101, 32, 105, 100, 61, 34, 78, 111, 100, 101, 34, 32,
   107, 101, 121, 61, 34, 49, 34, 47, 62, 60, 47, 110, 111, 100, 101, 62]

/-- ASCII bytes of the device-list message of test_server.py
(version 3.0), which lacks the id and key attributes on the outer node. -/
def device_list_v3 : List Nat :=
  [60, 63, 120, 109, 108, 32, 118, 101, 114, 115, 105, 111, 110, 61, 34, 49,
   46, 48, 34, 63, 62, 60, 110, 111, 100, 101, 62, 60, 110, 111, 100, 101,
   32, 105, 100, 61, 34, 78, 111, 100, 101, 34, 32, 107, 101, 121, 61, 34,
   49, 34, 47, 62, 60, 47, 110, 111, 100, 101, 62]

/-- Canned sample payload per production port.  Each is the byte-for-byte
result of the struct.pack call in Handler.handle on a little-endian host
(native byte order, the only order the test suite runs under):
32079 packs I14f of 1 and 10.0..23.0, 32078 packs I9f of 1 and 10.0..18.0,
32077 packs I9h of 1 and 10..18, 32076 packs 2I8f of 1, 8 and 10.0..17.0,
32075 packs 6s of the 6 bytes NUL t r u e newline. -/
def data_payload (port : Nat) : List Nat :=
  if port = 32079 then
    [1, 0, 0, 0, 0, 0, 32, 65, 0, 0, 48, 65, 0, 0, 64, 65, 0, 0, 80, 65,
     0, 0, 96, 65, 0, 0, 112, 65, 0, 0, 128, 65, 0, 0, 136, 65, 0, 0, 144,
     65, 0, 0, 152, 65, 0, 0, 160, 65, 0, 0, 168, 65, 0, 0, 176, 65, 0, 0,
     184, 65]
  else if port = 32078 then
    [1, 0, 0, 0, 0, 0, 32, 65, 0, 0, 48, 65, 0, 0, 64, 65, 0, 0, 80, 65,
     0, 0, 96, 65, 0, 0, 112, 65, 0, 0, 128, 65, 0, 0, 136, 65, 0, 0, 144,
     65]
  else if port = 32077 then
    [1, 0, 0, 0, 10, 0, 11, 0, 12, 0, 13, 0, 14, 0, 15, 0, 16, 0, 17, 0,
     18, 0]
  else if port = 32076 then
    [1, 0, 0, 0, 8, 0, 0, 0, 0, 0, 32, 65, 0, 0, 48, 65, 0, 0, 64, 65,
     0, 0, 80, 65, 0, 0, 96, 65, 0, 0, 112, 65, 0, 0, 128, 65, 0, 0, 136,
     65]
  else [0, 116, 114, 117, 101, 10]

/-- ASCII bytes of the diagnostic keyword header. -/
def kw_header : List Nat := [104, 101, 97, 100, 101, 114]

/-- ASCII bytes of the diagnostic keyword payload. -/
def kw_payload : List Nat := [112, 97, 121, 108, 111, 97, 100]

/-- ASCII bytes of the diagnostic keyword length. -/
def kw_length : List Nat := [108, 101, 110, 103, 116, 104]

/-- ASCII bytes of the diagnostic keyword xml. -/
def kw_xml : List Nat := [120, 109, 108]

/-- Bytes of struct.pack with format h of 1 on a little-endian host: the
2-byte truncated reply of the diagnostic header branch, sent raw. -/
def pack_h_one : List Nat := [1, 0]

/-- Bytes of struct.pack with format !I2I3f of 40, 1, 8, 10.0, 11.0, 12.0:
the payload branch reply, a frame declaring body length 40 over a 20-byte
body. -/
def payload_reply : List Nat :=
  [0, 0, 0, 40, 0, 0, 0, 1, 0, 0, 0, 8, 65, 32, 0, 0, 65, 48, 0, 0, 65, 64,
   0, 0]

/-- Bytes of struct.pack with format !I2I3f of 65536, 1, 8, 10.0, 11.0,
12.0: the length branch reply, declaring an oversized body length. -/
def oversize_reply : List Nat :=
  [0, 1, 0, 0, 0, 0, 0, 1, 0, 0, 0, 8, 65, 32, 0, 0, 65, 48, 0, 0, 65, 64,
   0, 0]

/-- The truncated XML fragment of the xml branch, the 4 ASCII bytes of
the text that opens an XML declaration and stops there. -/
def xml_fragment : List Nat := [60, 63, 120, 109]

/-- Containment test mirroring the Python expression msg.find(pat) != -1:
pat occurs as a contiguous substring of msg. -/
def contains_sub (pat msg : List Nat) : Bool :=
  (List.range (msg.length + 1)).any (fun i => pat.isPrefixOf (msg.drop i))

/-- Reply selection of the diagnostic else-branch of Handler.handle: the
if/elif chain testing msg for each keyword in order.  Python leaves buf
unbound when no keyword matches, so the subsequent sendall raises NameError;
that case is none here. -/
def diag_buf (msg : List Nat) : Option (List Nat) :=
  if contains_sub kw_header msg then some pack_h_one
  else if contains_sub kw_payload msg then some payload_reply
  else if contains_sub kw_length msg then some oversize_reply
  else if contains_sub kw_xml msg then some (make_message xml_fragment)
  else none

/-- How a session ended: the handler returned normally, returned early from
a caught send failure inside the streaming chunk loop, or was torn down by
an uncaught exception (diagnostic branch: NameError on an unbound buf,
AttributeError on a None message, or an uncaught sendall failure). -/
inductive SessionEnd where
  | normal : SessionEnd
  | writeFailed : SessionEnd
  | crashed : SessionEnd
deriving DecidableEq, Repr

/-- The inner while-loop of the streaming branch: walk msg from offset j,
at each step cutting at the next value n supplied by the random source and
sending the slice msg[j:n].  The arguments are the remaining random cut
values, the per-send success oracle (indexed by step number), the current
step number and offset.  Returns none when the supplied cut values run out
with the offset still short of the end (the real loop would keep running);
otherwise some (slices delivered, true) on normal exit or
some (slices delivered, false) when a send raised and the handler
returned. -/
def chunk_loop (msg : List Nat) (ok : Nat → Bool) :
    Nat → Nat → List Nat → Option (List (List Nat) × Bool)
  | _, j, [] => if j < msg.length then none else some ([], true)
  | step, j, n :: rest =>
    if j < msg.length then
      if ok step then
        match chunk_loop msg ok (step + 1) n rest with
        | none => none
        | some (sl, c) => some ((msg.drop j).take (n - j) :: sl, c)
      else some ([], false)
    else some ([], true)

/-- The random source contract of the chunk loop: random.randint(j, len msg)
returns a value between the current offset and the buffer length inclusive.
Checks the supplied cut values along the run of the loop. -/
def validCuts (msg : List Nat) : Nat → List Nat → Bool
  | _, [] => true
  | j, n :: rest =>
    if j < msg.length then
      decide (j ≤ n) && decide (n ≤ msg.length) && validCuts msg n rest
    else true

/-- Strictly progressing cut values: each cut moves the offset forward, and
the list is long enough for the loop to finish. -/
def strictCuts (msg : List Nat) : Nat → List Nat → Bool
  | j, [] => decide (msg.length ≤ j)
  | j, n :: rest =>
    if j < msg.length then
      decide (j < n) && decide (n ≤ msg.length) && strictCuts msg n rest
    else true

/-- The for-loop of the streaming branch: m remaining iterations starting at
iteration index i.  Each iteration encodes the canned frame, duplicates it
ks i times (random.randint(1, 5)), and sends the buffer through the chunk
loop with the cut values cuts i.  A send failure ends the loop (and the
session) early with false; none propagates an exhausted cut supply. -/
def stream_loop (frame : List Nat) (ks : Nat → Nat) (cuts : Nat → List Nat)
    (okS : Nat → Nat → Bool) : Nat → Nat → Option (List (List Nat) × Bool)
  | _, 0 => some ([], true)
  | i, m + 1 =>
    match chunk_loop ((List.replicate (ks i) frame).flatten) (okS i) 0 0
        (cuts i) with
    | none => none
    | some (sl, false) => some (sl, false)
    | some (sl, true) =>
      match stream_loop frame ks cuts okS (i + 1) m with
      | none => none
      | some (sl2, c) => some (sl ++ sl2, c)

/-- Handler.handle for one session.  client is the inbound byte stream;
ks and cuts are the values of the random source (duplication counts and cut
points per iteration); okW says whether the n-th write_message sendall
succeeds (write_message swallows the failure and returns False, delivering
nothing); okS is the per-iteration, per-step success oracle of the
streaming sendall calls; okD says whether the diagnostic branch raw sendall
succeeds (a failure there is uncaught).  The result is the transcript of
delivered sendall payloads in order plus how the session ended, or none if
a chunk loop exhausted its supplied cut values.

The channel-list read of the configurable service (port 32076) and the
diagnostic second read of the timeout branch consume inbound bytes but
deliver nothing, so they do not appear in the transcript; for port 32076
the message is never used.  The diagnostic branch reads the channel list
from client, crashes on a failed read (None has no find attribute) or an
unmatched keyword (buf unbound), and otherwise sends exactly the selected
reply and returns. -/
def handle (port : Nat) (client : List Nat) (ks : Nat → Nat)
    (cuts : Nat → List Nat) (okW : Nat → Bool) (okS : Nat → Nat → Bool)
    (okD : Bool) : Option (List (List Nat) × SessionEnd) :=
  let hs := (if okW 0 then [make_message (identity_xml port)] else []) ++
    (if okW 1 then [make_message device_list] else [])
  if is_production port then
    match stream_loop (make_message (data_payload port)) ks cuts okS 0
        100 with
    | none => none
    | some (sl, c) =>
      some (hs ++ sl, if c then SessionEnd.normal else SessionEnd.writeFailed)
  else
    match read_message client with
    | none => some (hs, SessionEnd.crashed)
    | some m =>
      match diag_buf m with
      | none => some (hs, SessionEnd.crashed)
      | some buf =>
        if okD then some (hs ++ [buf], SessionEnd.normal)
        else some (hs, SessionEnd.crashed)

/-- Number of occurrences of pat as a contiguous substring of s, counted by
starting position. -/
def substring_count (pat s : List Nat) : Nat :=
  ((List.range (s.length + 1)).filter
    (fun i => pat.isPrefixOf (s.drop i))).length

/-- ASCII bytes of the attribute text id equals quoted Node. -/
def attr_idNode : List Nat := [105, 100, 61, 34, 78, 111, 100, 101, 34]

/-- ASCII bytes of the attribute text key equals quoted 1. -/
def attr_key1 : List Nat := [107, 101, 121, 61, 34, 49, 34]

/-- ASCII bytes of the attribute text name equals the quoted service name
of the port, the identity content a client matches on. -/
def name_attr (port : Nat) : List Nat :=
  [110, 97, 109, 101, 61, 34] ++ service_name port ++ [34]

theorem pack_u32be_length (n : Nat) : (pack_u32be n).length = 4 := rfl

theorem make_message_length (b : List Nat) :
    (make_message b).length = 4 + b.length := by
  simp [make_message, pack_u32be]
  omega

theorem unpack_pack_u32be (n : Nat) (h : n < 4294967296) :
    unpack_u32be (pack_u32be n) = n := by
  simp only [pack_u32be, unpack_u32be, List.foldl]
  omega

/-- Core round-trip fact: a well-sized encoded frame at the head of a stream
decodes to exactly its body, whatever bytes follow. -/
theorem read_make_message (b t : List Nat) (h0 : 0 < b.length)
    (h1 : b.length ≤ 65535) :
    read_message (make_message b ++ t) = some b := by
  have hlen : (make_message b ++ t).take 4 = pack_u32be b.length := by
    have : make_message b ++ t = pack_u32be b.length ++ (b ++ t) := by
      simp [make_message]
    rw [this, List.take_append_of_le_length] <;> simp [pack_u32be]
  have hdrop : (make_message b ++ t).drop 4 = b ++ t := by
    have : make_message b ++ t = pack_u32be b.length ++ (b ++ t) := by
      simp [make_message]
    rw [this, List.drop_append_of_le_length] <;> simp [pack_u32be]
  have hval : unpack_u32be (pack_u32be b.length) = b.length :=
    unpack_pack_u32be _ (by omega)
  have htake : (b ++ t).take b.length = b := List.take_left b t
  simp only [read_message, hlen, hdrop, hval, pack_u32be_length, htake]
  have hrange : ¬(b.length = 0 ∨ b.length > 65535) := by omega
  simp [hrange]
  exact ⟨List.length_pos.mp h0, h1⟩

/-- Evaluation of read_message on a stream split into a 4-byte header and the
bytes that follow it: the declared length is range-checked, then that many
body bytes are taken if available. -/
theorem read_message_append (hdr body : List Nat) (h4 : hdr.length = 4) :
    read_message (hdr ++ body) =
      if unpack_u32be hdr = 0 ∨ unpack_u32be hdr > 65535 then none
      else if unpack_u32be hdr ≤ body.length
        then some (body.take (unpack_u32be hdr)) else none := by
  have htake : (hdr ++ body).take 4 = hdr := by
    rw [← h4]; exact List.take_left hdr body
  have hdrop : (hdr ++ body).drop 4 = body := by
    rw [← h4]; exact List.drop_left hdr body
  simp only [read_message, htake, hdrop, h4]
  by_cases hbad : unpack_u32be hdr = 0 ∨ unpack_u32be hdr > 65535
  · simp [hbad]
  · by_cases hle : unpack_u32be hdr ≤ body.length
    · simp [hbad, hle, List.length_take, Nat.min_eq_left hle]
    · have hne : (body.take (unpack_u32be hdr)).length ≠ unpack_u32be hdr := by
        simp only [List.length_take]
        omega
      simp [hbad, hle, hne]

/-- A stream whose header read comes up short (fewer than 4 bytes available)
decodes to none. -/
theorem read_message_short_header (s : List Nat) (hs : s.length < 4) :
    read_message s = none := by
  have : (s.take 4).length ≠ 4 := by
    simp only [List.length_take]
    omega
  simp only [read_message]
  rw [if_pos this]

/-- C1.  Frame codec round-trip: for every byte string b with
0 < len b ≤ 65535, decoding the output of make_message b (the 4-byte
big-endian length prefix followed by b) with read_message yields exactly b. -/
theorem frame_codec_round_trip (b : List Nat) (h0 : 0 < b.length)
    (h1 : b.length ≤ 65535) :
    read_message (make_message b) = some b := by
  have := read_make_message b [] h0 h1
  simpa using this

/-- C1 witness: the round trip evaluated at the concrete body [7, 7, 7]. -/
theorem frame_codec_round_trip_witness :
    read_message (make_message [7, 7, 7]) = some [7, 7, 7] :=
  frame_codec_round_trip [7, 7, 7] (by decide) (by decide)

/-- C4.  Header rejection: a 4-byte header whose big-endian value is 0 or
above 65535 is rejected (read_message returns none) regardless of the body
bytes that follow; a value in 1..65535 is accepted and the body read is
attempted, succeeding exactly when enough body bytes are available. -/
theorem header_rejection (hdr body : List Nat) (h4 : hdr.length = 4) :
    ((unpack_u32be hdr = 0 ∨ unpack_u32be hdr > 65535) →
      read_message (hdr ++ body) = none)
    ∧ (1 ≤ unpack_u32be hdr → unpack_u32be hdr ≤ 65535 →
      read_message (hdr ++ body) =
        if unpack_u32be hdr ≤ body.length
          then some (body.take (unpack_u32be hdr)) else none) := by
  rw [read_message_append hdr body h4]
  constructor
  · intro hbad
    simp [hbad]
  · intro hlo hhi
    have : ¬(unpack_u32be hdr = 0 ∨ unpack_u32be hdr > 65535) := by omega
    simp [this]

/-- C4 witness: the zero-length header [0,0,0,0] is rejected over the body
[9], the oversized header [0,1,0,0] (declaring 65536) is rejected, and the
header [0,0,0,1] is accepted over the same body, reading the 1-byte body. -/
theorem header_rejection_witness :
    read_message ([0, 0, 0, 0] ++ [9]) = none ∧
    read_message ([0, 1, 0, 0] ++ [9]) = none ∧
    read_message ([0, 0, 0, 1] ++ [9]) = some [9] := by
  refine ⟨(header_rejection [0, 0, 0, 0] [9] (by decide)).1 (by decide),
    (header_rejection [0, 1, 0, 0] [9] (by decide)).1 (by decide), ?_⟩
  have h := (header_rejection [0, 0, 0, 1] [9] (by decide)).2
    (by decide) (by decide)
  simpa using h

/-- C3 counterexample: a short body read and a short header read produce the
very same signal.  The stream [0,0,0,5,1,2] declares a 5-byte body but only
2 bytes follow, and read_message returns none; the stream [0,0] ends during
the header read, and read_message also returns none.  The two conditions
are therefore not distinguishable by the caller, contrary to the claim. -/
theorem read_failure_signals_cex :
    read_message [0, 0, 0, 5, 1, 2] = none ∧ read_message [0, 0] = none ∧
    read_message [0, 0, 0, 5, 1, 2] = read_message [0, 0] := by decide

/-- C3 amended: when the body read returns fewer bytes than the declared
length, read_message returns none, which is exactly the signal produced by
a short header read; the two failure modes are not distinguishable from the
return value. -/
theorem read_failure_signals_amended (hdr body s : List Nat)
    (h4 : hdr.length = 4) (hlo : 1 ≤ unpack_u32be hdr)
    (hhi : unpack_u32be hdr ≤ 65535)
    (hshort : body.length < unpack_u32be hdr) (hs : s.length < 4) :
    read_message (hdr ++ body) = none ∧ read_message s = none ∧
    read_message (hdr ++ body) = read_message s := by
  have h1 : read_message (hdr ++ body) = none := by
    rw [read_message_append hdr body h4]
    have hb : ¬(unpack_u32be hdr = 0 ∨ unpack_u32be hdr > 65535) := by omega
    have hle : ¬(unpack_u32be hdr ≤ body.length) := by omega
    simp [hb, hle]
  have h2 : read_message s = none := read_message_short_header s hs
  exact ⟨h1, h2, by rw [h1, h2]⟩

/-- C3 amended witness: evaluated at the declared-length-5 header with a
2-byte body, against the 2-byte header-read stream. -/
theorem read_failure_signals_amended_witness :
    read_message ([0, 0, 0, 5] ++ [1, 2]) = none ∧
    read_message [0, 0] = none ∧
    read_message ([0, 0, 0, 5] ++ [1, 2]) = read_message [0, 0] :=
  read_failure_signals_amended [0, 0, 0, 5] [1, 2] [0, 0] (by decide)
    (by decide) (by decide) (by decide) (by decide)

theorem slice_recompose (msg : List Nat) (j n : Nat) (hjn : j ≤ n) :
    (msg.drop j).take (n - j) ++ msg.drop n = msg.drop j := by
  have h1 : msg.drop n = (msg.drop j).drop (n - j) := by
    rw [List.drop_drop]
    congr 1
    omega
  rw [h1, List.take_append_drop]

/-- With every send succeeding and cut values respecting the random source
contract, a chunk loop that runs to completion delivers slices whose
concatenation is exactly the part of the buffer from the starting offset. -/
theorem chunk_loop_flatten (msg : List Nat) :
    ∀ (cuts : List Nat) (j step : Nat) (sl : List (List Nat)) (c : Bool),
      validCuts msg j cuts = true →
      chunk_loop msg (fun _ => true) step j cuts = some (sl, c) →
      c = true ∧ sl.flatten = msg.drop j := by
  intro cuts
  induction cuts with
  | nil =>
    intro j step sl c _ h
    simp only [chunk_loop] at h
    by_cases hj : j < msg.length
    · simp [hj] at h
    · simp only [hj, if_false, Option.some.injEq, Prod.mk.injEq] at h
      obtain ⟨hsl, hc⟩ := h
      subst hsl
      subst hc
      exact ⟨rfl, by simp [List.drop_eq_nil_of_le (Nat.le_of_not_lt hj)]⟩
  | cons n rest ih =>
    intro j step sl c hv h
    simp only [chunk_loop] at h
    by_cases hj : j < msg.length
    · simp only [hj, if_true] at h
      simp only [validCuts, hj, if_true, Bool.and_eq_true, decide_eq_true_eq]
        at hv
      obtain ⟨⟨hjn, hnm⟩, hvrest⟩ := hv
      cases hinner : chunk_loop msg (fun _ => true) (step + 1) n rest with
      | none => simp [hinner] at h
      | some r =>
        obtain ⟨sl2, c2⟩ := r
        have := ih n (step + 1) sl2 c2 hvrest hinner
        obtain ⟨hc2, hfl⟩ := this
        simp only [hinner, Option.some.injEq, Prod.mk.injEq] at h
        obtain ⟨hsl, hc⟩ := h
        subst hsl
        subst hc
        refine ⟨hc2, ?_⟩
        simp only [List.flatten_cons, hfl]
        exact slice_recompose msg j n hjn
    · simp only [hj, if_false, Option.some.injEq, Prod.mk.injEq] at h
      obtain ⟨hsl, hc⟩ := h
      subst hsl
      subst hc
      refine ⟨rfl, ?_⟩
      simp [List.drop_eq_nil_of_le (Nat.le_of_not_lt hj)]

/-- C8.  Jitter transmitter preserves the byte stream: within one streaming
iteration the concatenation, in send order, of all chunks delivered by a
completed chunking loop equals exactly the k back-to-back copies of the
encoded sample frame, for the duplication count k in 1..5 chosen by the
random source, whatever cut points the random source picks. -/
theorem jitter_preserves_stream (data : List Nat) (k : Nat)
    (cuts : List Nat) (sl : List (List Nat)) (c : Bool)
    (_hk1 : 1 ≤ k) (_hk5 : k ≤ 5)
    (hv : validCuts ((List.replicate k (make_message data)).flatten) 0 cuts
      = true)
    (h : chunk_loop ((List.replicate k (make_message data)).flatten)
      (fun _ => true) 0 0 cuts = some (sl, c)) :
    sl.flatten = (List.replicate k (make_message data)).flatten ∧
    c = true := by
  have := chunk_loop_flatten ((List.replicate k (make_message data)).flatten)
    cuts 0 0 sl c hv h
  exact ⟨by simpa using this.2, this.1⟩

/-- C8 witness: the frame over body [7] duplicated twice, cut at 3 then at
the buffer end. -/
theorem jitter_preserves_stream_witness :
    ∃ sl c, chunk_loop ((List.replicate 2 (make_message [7])).flatten)
      (fun _ => true) 0 0 [3, 10] = some (sl, c) ∧
      sl.flatten = (List.replicate 2 (make_message [7])).flatten ∧
      c = true := by
  cases hc : chunk_loop ((List.replicate 2 (make_message [7])).flatten)
      (fun _ => true) 0 0 [3, 10] with
  | none => exact absurd hc (by decide)
  | some r =>
    obtain ⟨sl, c⟩ := r
    exact ⟨sl, c, rfl, jitter_preserves_stream [7] 2 [3, 10] sl c (by decide)
      (by decide) (by decide) hc⟩

/-- C9 counterexample: the random source contract randint(j, len) includes
the current offset j itself, and a source that keeps returning the offset
makes no progress.  On the 5-byte buffer of one encoded frame, 100
contract-respecting draws of 0 leave the loop still short of the end of the
buffer (the loop has consumed every supplied cut and is still running), so
the chunking loop does not reach the end of the buffer for every sequence
the random source may return. -/
theorem chunk_loop_stall_cex :
    validCuts (make_message [7]) 0 (List.replicate 100 0) = true ∧
    chunk_loop (make_message [7]) (fun _ => true) 0 0
      (List.replicate 100 0) = none := by decide

/-- An always-at-offset-zero random source stalls the chunk loop on any
nonempty buffer: however many such draws are supplied, the loop is still
running when they run out. -/
theorem chunk_loop_stall (msg : List Nat) (hne : 0 < msg.length) :
    ∀ (m step : Nat),
      chunk_loop msg (fun _ => true) step 0 (List.replicate m 0) = none := by
  intro m
  induction m with
  | zero =>
    intro step
    simp [chunk_loop, hne]
  | succ m ih =>
    intro step
    simp only [List.replicate, chunk_loop, hne, if_true, ih (step + 1)]

/-- A strictly progressing cut supply drives the chunk loop to the end of
the buffer. -/
theorem chunk_loop_strict (msg : List Nat) :
    ∀ (cuts : List Nat) (j step : Nat), strictCuts msg j cuts = true →
      ∃ sl, chunk_loop msg (fun _ => true) step j cuts = some (sl, true) := by
  intro cuts
  induction cuts with
  | nil =>
    intro j step hs
    simp only [strictCuts, decide_eq_true_eq] at hs
    have hj : ¬j < msg.length := Nat.not_lt.mpr hs
    exact ⟨[], by simp [chunk_loop, hj]⟩
  | cons n rest ih =>
    intro j step hs
    by_cases hj : j < msg.length
    · simp only [strictCuts, hj, if_true, Bool.and_eq_true, decide_eq_true_eq]
        at hs
      obtain ⟨⟨hjn, hnm⟩, hrest⟩ := hs
      obtain ⟨sl, hsl⟩ := ih n (step + 1) hrest
      exact ⟨(msg.drop j).take (n - j) :: sl, by
        simp [chunk_loop, hj, hsl]⟩
    · exact ⟨[], by simp [chunk_loop, hj]⟩

/-- C9 amended: the chunking loop reaches the end of the buffer for every
cut sequence whose draws strictly advance the offset, but not for every
sequence the random source may return: a source that always returns the
current offset is within the randint(j, len) contract and stalls the loop
forever on any nonempty buffer, so the Stream loop finishes only almost
surely, not for every sequence. -/
theorem stream_chunk_termination (msg : List Nat) (cuts : List Nat)
    (j step m : Nat) (hstrict : strictCuts msg j cuts = true)
    (hne : 0 < msg.length) :
    (∃ sl, chunk_loop msg (fun _ => true) step j cuts = some (sl, true)) ∧
    chunk_loop msg (fun _ => true) step 0 (List.replicate m 0) = none :=
  ⟨chunk_loop_strict msg cuts j step hstrict, chunk_loop_stall msg hne m step⟩

/-- C9 amended witness: the strictly progressing supply [2, 5] finishes on
the frame over [7], while three at-offset draws leave it running. -/
theorem stream_chunk_termination_witness :
    (∃ sl, chunk_loop (make_message [7]) (fun _ => true) 0 0 [2, 5] =
      some (sl, true)) ∧
    chunk_loop (make_message [7]) (fun _ => true) 0 0
      (List.replicate 3 0) = none :=
  stream_chunk_termination (make_message [7]) [2, 5] 0 0 3 (by decide)
    (by decide)

/-- With every streaming send succeeding and all cut supplies within the
random source contract, a completed streaming loop delivers, per iteration
in order, the bytes of that iteration's duplicated frame buffer. -/
theorem stream_loop_flatten (frame : List Nat) (ks : Nat → Nat)
    (cuts : Nat → List Nat)
    (hv : ∀ t, validCuts ((List.replicate (ks t) frame).flatten) 0 (cuts t)
      = true) :
    ∀ (m i : Nat) (sl : List (List Nat)) (c : Bool),
      stream_loop frame ks cuts (fun _ _ => true) i m = some (sl, c) →
      c = true ∧
      sl.flatten = ((List.range' i m).map
        (fun t => (List.replicate (ks t) frame).flatten)).flatten := by
  intro m
  induction m with
  | zero =>
    intro i sl c h
    simp only [stream_loop, Option.some.injEq, Prod.mk.injEq] at h
    obtain ⟨hsl, hc⟩ := h
    subst hsl
    subst hc
    simp [List.range']
  | succ m ih =>
    intro i sl c h
    simp only [stream_loop] at h
    cases hchunk : chunk_loop ((List.replicate (ks i) frame).flatten)
        (fun _ => true) 0 0 (cuts i) with
    | none => simp [hchunk] at h
    | some r =>
      obtain ⟨sl1, c1⟩ := r
      obtain ⟨hc1, hfl1⟩ := chunk_loop_flatten
        ((List.replicate (ks i) frame).flatten) (cuts i) 0 0 sl1 c1 (hv i)
        hchunk
      subst hc1
      simp only [hchunk] at h
      cases hrec : stream_loop frame ks cuts (fun _ _ => true) (i + 1) m with
      | none => simp [hrec] at h
      | some r2 =>
        obtain ⟨sl2, c2⟩ := r2
        obtain ⟨hc2, hfl2⟩ := ih (i + 1) sl2 c2 hrec
        simp only [hrec, Option.some.injEq, Prod.mk.injEq] at h
        obtain ⟨hsl, hc⟩ := h
        subst hsl
        subst hc
        refine ⟨hc2, ?_⟩
        simp only [List.range'_succ, List.map_cons, List.flatten_cons,
          List.flatten_append, hfl2, hfl1]
        simp

/-- Handler.handle on a production port, for any write-failure oracle: the
identity and device-list frames are delivered exactly when their
write_message sendall succeeds, and the session always proceeds into the
streaming loop, whose outcome alone decides how the session ends. -/
theorem handle_production_eq (port : Nat) (client : List Nat)
    (ks : Nat → Nat) (cuts : Nat → List Nat) (okW : Nat → Bool)
    (okS : Nat → Nat → Bool) (okD : Bool)
    (hp : is_production port = true) :
    handle port client ks cuts okW okS okD =
      (stream_loop (make_message (data_payload port)) ks cuts okS 0
        100).map
        (fun r =>
          ((if okW 0 then [make_message (identity_xml port)] else []) ++
            ((if okW 1 then [make_message device_list] else []) ++ r.1),
          if r.2 then SessionEnd.normal else SessionEnd.writeFailed)) := by
  simp only [handle, hp, if_true]
  cases h : stream_loop (make_message (data_payload port)) ks cuts okS 0
      100 with
  | none => rfl
  | some r =>
    obtain ⟨sl, c⟩ := r
    simp [List.append_assoc]

/-- Handler.handle on the diagnostic port with a well-formed channel-list
frame whose content selects a reply: after the handshake writes, the
selected reply is delivered exactly when the raw sendall succeeds, and an
uncaught sendall failure ends the session. -/
theorem handle_diag_eq (port : Nat) (msg tail : List Nat) (ks : Nat → Nat)
    (cuts : Nat → List Nat) (okW : Nat → Bool) (okS : Nat → Nat → Bool)
    (okD : Bool) (buf : List Nat) (hp : is_production port = false)
    (h0 : 0 < msg.length) (h1 : msg.length ≤ 65535)
    (hb : diag_buf msg = some buf) :
    handle port (make_message msg ++ tail) ks cuts okW okS okD =
      some ((if okW 0 then [make_message (identity_xml port)] else []) ++
        ((if okW 1 then [make_message device_list] else []) ++
          (if okD then [buf] else [])),
        if okD then SessionEnd.normal else SessionEnd.crashed) := by
  simp only [handle, hp, Bool.false_eq_true, if_false,
    read_make_message msg tail h0 h1, hb]
  cases okD <;> simp [List.append_assoc]

/-- A nonempty list all of whose members equal a dedups to just a. -/
theorem dedup_all_eq (a : List Nat) :
    ∀ l : List (List Nat), l ≠ [] → (∀ x ∈ l, x = a) → l.dedup = [a] := by
  intro l
  induction l with
  | nil => intro h _; exact absurd rfl h
  | cons x t ih =>
    intro _ hall
    have hx : x = a := hall x (List.mem_cons_self x t)
    subst hx
    cases t with
    | nil => simp
    | cons y t2 =>
      have hy : y = x := hall y (by simp)
      have hmem : x ∈ y :: t2 := by
        rw [hy]
        exact List.mem_cons_self x t2
      rw [List.dedup_cons_of_mem hmem]
      exact ih (by simp) (fun z hz => hall z (List.mem_cons_of_mem x hz))

/-- Flattening commutes with mapping flatten over a doubly nested list. -/
theorem flatten_map_flatten :
    ∀ L : List (List (List Nat)),
      (L.map List.flatten).flatten = L.flatten.flatten := by
  intro L
  induction L with
  | nil => rfl
  | cons x t ih => simp [ih]

/-- Total frame count of the duplicated per-iteration blocks: between one
and five frames per iteration. -/
theorem replicate_blocks_length (a : List Nat) (ks : Nat → Nat)
    (hk1 : ∀ i, 1 ≤ ks i) (hk5 : ∀ i, ks i ≤ 5) :
    ∀ idxs : List Nat,
      idxs.length ≤
        ((idxs.map (fun i => List.replicate (ks i) a)).flatten).length ∧
      ((idxs.map (fun i => List.replicate (ks i) a)).flatten).length ≤
        5 * idxs.length := by
  intro idxs
  induction idxs with
  | nil => simp
  | cons i t ih =>
    have h1 := hk1 i
    have h5 := hk5 i
    obtain ⟨ihl, ihr⟩ := ih
    simp only [List.map_cons, List.flatten_cons, List.length_append,
      List.length_replicate, List.length_cons]
    omega

/-- C5.  Diagnostic branch selection and exclusivity: for every channel-list
message containing at least one of the keywords, the handler selects its
reply by the first match in the fixed order header, payload, length, xml,
sends exactly one reply after the two handshake frames, and ends the
session normally — the transcript is the same for every duplication-count
and cut-point source, so the 100-iteration streaming loop is never
entered. -/
theorem diag_branch_selection (msg tail : List Nat) (ks : Nat → Nat)
    (cuts : Nat → List Nat) (okS : Nat → Nat → Bool)
    (h0 : 0 < msg.length) (h1 : msg.length ≤ 65535)
    (hkw : (contains_sub kw_header msg || contains_sub kw_payload msg ||
      contains_sub kw_length msg || contains_sub kw_xml msg) = true) :
    ∃ buf, diag_buf msg = some buf ∧
      handle 32000 (make_message msg ++ tail) ks cuts (fun _ => true) okS
        true = some ([make_message (identity_xml 32000),
          make_message device_list, buf], SessionEnd.normal) ∧
      (contains_sub kw_header msg = true → buf = pack_h_one) ∧
      (contains_sub kw_header msg = false →
        contains_sub kw_payload msg = true → buf = payload_reply) ∧
      (contains_sub kw_header msg = false →
        contains_sub kw_payload msg = false →
        contains_sub kw_length msg = true → buf = oversize_reply) ∧
      (contains_sub kw_header msg = false →
        contains_sub kw_payload msg = false →
        contains_sub kw_length msg = false →
        contains_sub kw_xml msg = true →
        buf = make_message xml_fragment) := by
  have hp : is_production 32000 = false := by decide
  obtain ⟨buf, hb⟩ : ∃ buf, diag_buf msg = some buf := by
    simp only [diag_buf]
    by_cases h2 : contains_sub kw_header msg <;>
      by_cases h3 : contains_sub kw_payload msg <;>
        by_cases h4 : contains_sub kw_length msg <;>
          by_cases h5 : contains_sub kw_xml msg <;>
            simp_all
  refine ⟨buf, hb, ?_, ?_, ?_, ?_, ?_⟩
  · have := handle_diag_eq 32000 msg tail ks cuts (fun _ => true) okS true
      buf hp h0 h1 hb
    simpa using this
  · intro hh
    simp [diag_buf, hh] at hb
    exact hb.symm
  · intro hnh hp2
    simp [diag_buf, hnh, hp2] at hb
    exact hb.symm
  · intro hnh hnp hl
    simp [diag_buf, hnh, hnp, hl] at hb
    exact hb.symm
  · intro hnh hnp hnl hx
    simp [diag_buf, hnh, hnp, hnl, hx] at hb
    exact hb.symm

/-- C5 witness: a channel-list message containing both the header and the
xml keyword, against a constant random source: the header branch wins. -/
theorem diag_branch_selection_witness :
    ∃ buf, diag_buf (kw_header ++ kw_xml) = some buf ∧
      handle 32000 (make_message (kw_header ++ kw_xml) ++ [])
        (fun _ => 1) (fun _ => []) (fun _ => true) (fun _ _ => true) true =
        some ([make_message (identity_xml 32000), make_message device_list,
          buf], SessionEnd.normal) ∧
      (contains_sub kw_header (kw_header ++ kw_xml) = true →
        buf = pack_h_one) ∧
      (contains_sub kw_header (kw_header ++ kw_xml) = false →
        contains_sub kw_payload (kw_header ++ kw_xml) = true →
        buf = payload_reply) ∧
      (contains_sub kw_header (kw_header ++ kw_xml) = false →
        contains_sub kw_payload (kw_header ++ kw_xml) = false →
        contains_sub kw_length (kw_header ++ kw_xml) = true →
        buf = oversize_reply) ∧
      (contains_sub kw_header (kw_header ++ kw_xml) = false →
        contains_sub kw_payload (kw_header ++ kw_xml) = false →
        contains_sub kw_length (kw_header ++ kw_xml) = false →
        contains_sub kw_xml (kw_header ++ kw_xml) = true →
        buf = make_message xml_fragment) :=
  diag_branch_selection (kw_header ++ kw_xml) [] (fun _ => 1) (fun _ => [])
    (fun _ _ => true) (by decide) (by decide) (by decide)

/-- C2 counterexample: on the channel-list message header itself, the
diagnostic reply (the third delivered message of the session) is the two
raw bytes of struct.pack of format h of 1 — too short to carry the 4-byte
big-endian length field of a length-prefixed frame (so no declared body
length exists, let alone one equal to 2), and read_message cannot decode
it as a frame. -/
theorem diag_header_reply_cex :
    (handle 32000 (make_message kw_header) (fun _ => 1) (fun _ => [])
      (fun _ => true) (fun _ _ => true) true).map (fun r => r.1.drop 2) =
      some [[1, 0]] ∧
    ([1, 0] : List Nat).length = 2 ∧
    ¬4 ≤ ([1, 0] : List Nat).length ∧
    read_message [1, 0] = none := by decide

/-- C2 amended: for every channel-list message containing the keyword
header, the diagnostic service sends exactly one reply after the handshake
frames: the 2 raw bytes of struct.pack of format h of 1, written without
any length prefix — a truncated, under-sized reply shorter than a frame
header, which read_message rejects — rather than a length-prefixed frame
declaring body length 2. -/
theorem diag_header_truncated_reply (msg tail : List Nat) (ks : Nat → Nat)
    (cuts : Nat → List Nat) (okS : Nat → Nat → Bool)
    (h0 : 0 < msg.length) (h1 : msg.length ≤ 65535)
    (hh : contains_sub kw_header msg = true) :
    handle 32000 (make_message msg ++ tail) ks cuts (fun _ => true) okS
      true = some ([make_message (identity_xml 32000),
        make_message device_list, pack_h_one], SessionEnd.normal) ∧
    pack_h_one.length = 2 ∧ pack_h_one.length < 4 ∧
    read_message pack_h_one = none := by
  have hp : is_production 32000 = false := by decide
  have hb : diag_buf msg = some pack_h_one := by simp [diag_buf, hh]
  have := handle_diag_eq 32000 msg tail ks cuts (fun _ => true) okS true
    pack_h_one hp h0 h1 hb
  exact ⟨by simpa using this, by decide, by decide, by decide⟩

/-- C2 amended witness: evaluated on the keyword itself as the channel-list
message. -/
theorem diag_header_truncated_reply_witness :
    handle 32000 (make_message kw_header ++ []) (fun _ => 1) (fun _ => [])
      (fun _ => true) (fun _ _ => true) true =
      some ([make_message (identity_xml 32000), make_message device_list,
        pack_h_one], SessionEnd.normal) ∧
    pack_h_one.length = 2 ∧ pack_h_one.length < 4 ∧
    read_message pack_h_one = none :=
  diag_header_truncated_reply kw_header [] (fun _ => 1) (fun _ => [])
    (fun _ _ => true) (by decide) (by decide) (by decide)

/-- Core handshake-ordering fact shared by the five production ports: in a
full all-sends-succeed session the delivered byte stream starts with the
identity frame, then the device-list frame, then the first sample frame,
and parsing it with read_message recovers the three bodies in that order. -/
theorem handshake_core (p : Nat) (client : List Nat) (ks : Nat → Nat)
    (cuts : Nat → List Nat) (sends : List (List Nat)) (e : SessionEnd)
    (hp : is_production p = true)
    (hid0 : 0 < (identity_xml p).length)
    (hid1 : (identity_xml p).length ≤ 65535)
    (hdata0 : 0 < (data_payload p).length)
    (hdata1 : (data_payload p).length ≤ 65535)
    (hname : contains_sub (name_attr p) (identity_xml p) = true)
    (hk : ∀ i, 1 ≤ ks i)
    (hv : ∀ t, validCuts ((List.replicate (ks t)
      (make_message (data_payload p))).flatten) 0 (cuts t) = true)
    (h : handle p client ks cuts (fun _ => true) (fun _ _ => true) true =
      some (sends, e)) :
    ∃ rest,
      sends.flatten = make_message (identity_xml p) ++
        (make_message device_list ++
          (make_message (data_payload p) ++ rest)) ∧
      read_message sends.flatten = some (identity_xml p) ∧
      contains_sub (name_attr p) (identity_xml p) = true ∧
      read_message (sends.flatten.drop (4 + (identity_xml p).length)) =
        some device_list ∧
      substring_count attr_idNode device_list = 1 ∧
      substring_count attr_key1 device_list = 1 ∧
      substring_count attr_idNode device_list_v3 = 1 ∧
      substring_count attr_key1 device_list_v3 = 1 ∧
      read_message ((sends.flatten.drop
        (4 + (identity_xml p).length)).drop (4 + device_list.length)) =
        some (data_payload p) ∧
      e = SessionEnd.normal := by
  rw [handle_production_eq p client ks cuts (fun _ => true)
    (fun _ _ => true) true hp, Option.map_eq_some'] at h
  obtain ⟨r, hr, hf⟩ := h
  obtain ⟨sl, c⟩ := r
  obtain ⟨hc, hfl⟩ := stream_loop_flatten (make_message (data_payload p))
    ks cuts hv 100 0 sl c hr
  subst hc
  simp only [if_true, Prod.mk.injEq] at hf
  obtain ⟨hsends, he⟩ := hf
  subst hsends
  cases hks : ks 0 with
  | zero => exact absurd (hks ▸ hk 0) (by decide)
  | succ k =>
    have hfirst : sl.flatten = make_message (data_payload p) ++
        ((List.replicate k (make_message (data_payload p))).flatten ++
          ((List.range' 1 99).map (fun t => (List.replicate (ks t)
            (make_message (data_payload p))).flatten)).flatten) := by
      rw [hfl]
      have h100 : (100 : Nat) = 99 + 1 := rfl
      rw [h100, List.range'_succ, List.map_cons, List.flatten_cons, hks,
        List.replicate_succ, List.flatten_cons, List.append_assoc]
    refine ⟨(List.replicate k (make_message (data_payload p))).flatten ++
      ((List.range' 1 99).map (fun t => (List.replicate (ks t)
        (make_message (data_payload p))).flatten)).flatten, ?_, ?_, hname,
      ?_, by decide, by decide, by decide, by decide, ?_, by
        simpa using he.symm⟩
    · simp [hfirst]
    · have heq : ([make_message (identity_xml p)] ++
          ([make_message device_list] ++ sl)).flatten =
          make_message (identity_xml p) ++ (make_message device_list ++
            sl.flatten) := by simp
      rw [heq]
      exact read_make_message _ _ hid0 hid1
    · have heq : ([make_message (identity_xml p)] ++
          ([make_message device_list] ++ sl)).flatten =
          make_message (identity_xml p) ++ (make_message device_list ++
            sl.flatten) := by simp
      rw [heq, ← make_message_length (identity_xml p), List.drop_left]
      exact read_make_message _ _ (by decide) (by decide)
    · have heq : ([make_message (identity_xml p)] ++
          ([make_message device_list] ++ sl)).flatten =
          make_message (identity_xml p) ++ (make_message device_list ++
            sl.flatten) := by simp
      rw [heq, ← make_message_length (identity_xml p), List.drop_left,
        ← make_message_length device_list, List.drop_left, hfirst]
      exact read_make_message _ _ hdata0 hdata1

/-- C6.  Handshake ordering: for every session on one of the five
production ports in which all sends succeed, the first three frames of the
delivered byte stream are, in order, the identity frame (whose body
contains the name attribute text matching that port's service), the
device-list frame (whose body contains exactly one occurrence of the
id-Node attribute text and exactly one of the key-1 attribute text, in
both the version 4.0 and the version 3.0 device list), and then the first
binary sample frame. -/
theorem handshake_order (p : Nat) (client : List Nat) (ks : Nat → Nat)
    (cuts : Nat → List Nat) (sends : List (List Nat)) (e : SessionEnd)
    (hp5 : p = 32075 ∨ p = 32076 ∨ p = 32077 ∨ p = 32078 ∨ p = 32079)
    (hk : ∀ i, 1 ≤ ks i)
    (hv : ∀ t, validCuts ((List.replicate (ks t)
      (make_message (data_payload p))).flatten) 0 (cuts t) = true)
    (h : handle p client ks cuts (fun _ => true) (fun _ _ => true) true =
      some (sends, e)) :
    ∃ rest,
      sends.flatten = make_message (identity_xml p) ++
        (make_message device_list ++
          (make_message (data_payload p) ++ rest)) ∧
      read_message sends.flatten = some (identity_xml p) ∧
      contains_sub (name_attr p) (identity_xml p) = true ∧
      read_message (sends.flatten.drop (4 + (identity_xml p).length)) =
        some device_list ∧
      substring_count attr_idNode device_list = 1 ∧
      substring_count attr_key1 device_list = 1 ∧
      substring_count attr_idNode device_list_v3 = 1 ∧
      substring_count attr_key1 device_list_v3 = 1 ∧
      read_message ((sends.flatten.drop
        (4 + (identity_xml p).length)).drop (4 + device_list.length)) =
        some (data_payload p) ∧
      e = SessionEnd.normal := by
  rcases hp5 with h5 | h5 | h5 | h5 | h5 <;> subst h5 <;>
    exact handshake_core _ client ks cuts sends e (by decide) (by decide)
      (by decide) (by decide) (by decide) (by decide) hk hv h

/-- C6 witness: a full session on the console port with duplication count
1 and whole-buffer cuts. -/
theorem handshake_order_witness :
    ∃ sends e, handle 32075 [] (fun _ => 1) (fun _ => [10])
      (fun _ => true) (fun _ _ => true) true = some (sends, e) ∧
      ∃ rest,
        sends.flatten = make_message (identity_xml 32075) ++
          (make_message device_list ++
            (make_message (data_payload 32075) ++ rest)) ∧
        read_message sends.flatten = some (identity_xml 32075) ∧
        contains_sub (name_attr 32075) (identity_xml 32075) = true ∧
        read_message (sends.flatten.drop
          (4 + (identity_xml 32075).length)) = some device_list ∧
        substring_count attr_idNode device_list = 1 ∧
        substring_count attr_key1 device_list = 1 ∧
        substring_count attr_idNode device_list_v3 = 1 ∧
        substring_count attr_key1 device_list_v3 = 1 ∧
        read_message ((sends.flatten.drop
          (4 + (identity_xml 32075).length)).drop
          (4 + device_list.length)) = some (data_payload 32075) ∧
        e = SessionEnd.normal := by
  cases hh : handle 32075 [] (fun _ => 1) (fun _ => [10]) (fun _ => true)
      (fun _ _ => true) true with
  | none => exact absurd hh (by decide)
  | some r =>
    obtain ⟨sends, e⟩ := r
    exact ⟨sends, e, rfl, handshake_order 32075 [] (fun _ => 1)
      (fun _ => [10]) sends e (by decide) (fun _ => Nat.le_refl 1)
      (fun _ => by
        change validCuts (List.replicate 1
          (make_message (data_payload 32075))).flatten 0 [10] = true
        decide) hh⟩

/-- C7 counterexample: a full failure-free session on the console port
(duplication count 1 each iteration, whole-buffer cuts) transmits exactly
100 sample frames after the two handshake frames and ends normally, but
de-duplicating the transmitted sample frames by content yields exactly 1
distinct frame, not 100: the canned payload is identical on every
iteration, so content-based de-duplication collapses all of them. -/
theorem sample_count_cex :
    (handle 32075 [] (fun _ => 1) (fun _ => [10]) (fun _ => true)
      (fun _ _ => true) true).map
      (fun r => ((r.1.drop 2).length, (r.1.drop 2).dedup.length, r.2)) =
      some (100, 1, SessionEnd.normal) := by decide

/-- C7 amended: a full, failure-free session against any production port
runs the streaming loop for exactly 100 iterations (the delivered byte
stream decomposes, after the two handshake frames, into the 100 ordered
per-iteration blocks), the total number of transmitted sample frames is
between 100 and 500 (each iteration sends its frame 1 to 5 times), and
de-duplicating the transmitted sample frames by content yields exactly 1
distinct frame — not 100 — because the canned payload is identical on
every iteration. -/
theorem sample_count_amended (p : Nat) (client : List Nat) (ks : Nat → Nat)
    (cuts : Nat → List Nat) (sends : List (List Nat)) (e : SessionEnd)
    (hp5 : p = 32075 ∨ p = 32076 ∨ p = 32077 ∨ p = 32078 ∨ p = 32079)
    (hk1 : ∀ i, 1 ≤ ks i) (hk5 : ∀ i, ks i ≤ 5)
    (hv : ∀ t, validCuts ((List.replicate (ks t)
      (make_message (data_payload p))).flatten) 0 (cuts t) = true)
    (h : handle p client ks cuts (fun _ => true) (fun _ _ => true) true =
      some (sends, e)) :
    e = SessionEnd.normal ∧
    sends.flatten = make_message (identity_xml p) ++
      (make_message device_list ++
        (((List.range 100).map (fun i => List.replicate (ks i)
          (make_message (data_payload p)))).flatten).flatten) ∧
    ((List.range 100).map (fun i => List.replicate (ks i)
      (make_message (data_payload p)))).length = 100 ∧
    (((List.range 100).map (fun i => List.replicate (ks i)
      (make_message (data_payload p)))).flatten).dedup =
      [make_message (data_payload p)] ∧
    100 ≤ (((List.range 100).map (fun i => List.replicate (ks i)
      (make_message (data_payload p)))).flatten).length ∧
    (((List.range 100).map (fun i => List.replicate (ks i)
      (make_message (data_payload p)))).flatten).length ≤ 500 := by
  have hp : is_production p = true := by
    rcases hp5 with h5 | h5 | h5 | h5 | h5 <;> subst h5 <;> decide
  rw [handle_production_eq p client ks cuts (fun _ => true)
    (fun _ _ => true) true hp, Option.map_eq_some'] at h
  obtain ⟨r, hr, hf⟩ := h
  obtain ⟨sl, c⟩ := r
  obtain ⟨hc, hfl⟩ := stream_loop_flatten (make_message (data_payload p))
    ks cuts hv 100 0 sl c hr
  subst hc
  simp only [if_true, Prod.mk.injEq] at hf
  obtain ⟨hsends, he⟩ := hf
  subst hsends
  have hstream : sl.flatten = (((List.range 100).map
      (fun i => List.replicate (ks i)
        (make_message (data_payload p)))).flatten).flatten := by
    rw [hfl, ← List.range_eq_range', ← flatten_map_flatten, List.map_map]
    rfl
  have hall : ∀ x ∈ ((List.range 100).map (fun i => List.replicate (ks i)
      (make_message (data_payload p)))).flatten,
      x = make_message (data_payload p) := by
    intro x hx
    rw [List.mem_flatten] at hx
    obtain ⟨blk, hblk, hxblk⟩ := hx
    rw [List.mem_map] at hblk
    obtain ⟨i, _, hbi⟩ := hblk
    subst hbi
    exact List.eq_of_mem_replicate hxblk
  have hmem : make_message (data_payload p) ∈ ((List.range 100).map
      (fun i => List.replicate (ks i)
        (make_message (data_payload p)))).flatten := by
    rw [List.mem_flatten]
    refine ⟨List.replicate (ks 0) (make_message (data_payload p)),
      List.mem_map.mpr ⟨0, by simp, rfl⟩, ?_⟩
    rw [List.mem_replicate]
    exact ⟨by have := hk1 0; omega, rfl⟩
  have hbounds := replicate_blocks_length (make_message (data_payload p))
    ks hk1 hk5 (List.range 100)
  refine ⟨by simpa using he.symm, ?_, by simp, ?_, ?_, ?_⟩
  · simp [hstream]
  · exact dedup_all_eq (make_message (data_payload p)) _
      (List.ne_nil_of_mem hmem) hall
  · simpa using hbounds.1
  · simpa using hbounds.2

/-- C7 amended witness: evaluated on the console-port session with
duplication count 1 and whole-buffer cuts. -/
theorem sample_count_amended_witness :
    ∃ sends e, handle 32075 [] (fun _ => 1) (fun _ => [10])
      (fun _ => true) (fun _ _ => true) true = some (sends, e) ∧
      e = SessionEnd.normal ∧
      sends.flatten = make_message (identity_xml 32075) ++
        (make_message device_list ++
          (((List.range 100).map (fun _ => List.replicate 1
            (make_message (data_payload 32075)))).flatten).flatten) ∧
      (((List.range 100).map (fun _ => List.replicate 1
        (make_message (data_payload 32075)))).flatten).dedup =
        [make_message (data_payload 32075)] := by
  cases hh : handle 32075 [] (fun _ => 1) (fun _ => [10]) (fun _ => true)
      (fun _ _ => true) true with
  | none => exact absurd hh (by decide)
  | some r =>
    obtain ⟨sends, e⟩ := r
    have hres := sample_count_amended 32075 [] (fun _ => 1) (fun _ => [10])
      sends e (by decide) (fun _ => Nat.le_refl 1)
      (fun _ => by change (1 : Nat) ≤ 5; decide)
      (fun _ => by
        change validCuts (List.replicate 1
          (make_message (data_payload 32075))).flatten 0 [10] = true
        decide) hh
    exact ⟨sends, e, rfl, hres.1, hres.2.1, hres.2.2.2.1⟩

/-- C10.  Write-failure semantics: on a production port the session result
does not depend on whether the identity or device-list write_message
sendall fails — those frames are simply absent from the transcript, the
handler still proceeds into the streaming loop, and only the streaming
loop's own outcome decides whether the session ends normally or by a
caught streaming write failure; on the diagnostic port the raw sendall of
the selected reply is uncaught, so its failure ends the session. -/
theorem write_failure_semantics :
    (∀ (p : Nat) (client : List Nat) (ks : Nat → Nat)
      (cuts : Nat → List Nat) (okW : Nat → Bool) (okS : Nat → Nat → Bool)
      (okD : Bool), is_production p = true →
      handle p client ks cuts okW okS okD =
        (stream_loop (make_message (data_payload p)) ks cuts okS 0
          100).map
          (fun r =>
            ((if okW 0 then [make_message (identity_xml p)] else []) ++
              ((if okW 1 then [make_message device_list] else []) ++ r.1),
            if r.2 then SessionEnd.normal else SessionEnd.writeFailed))) ∧
    (∀ (msg tail : List Nat) (ks : Nat → Nat) (cuts : Nat → List Nat)
      (okW : Nat → Bool) (okS : Nat → Nat → Bool),
      0 < msg.length → msg.length ≤ 65535 →
      contains_sub kw_header msg = true →
      handle 32000 (make_message msg ++ tail) ks cuts okW okS false =
        some ((if okW 0 then [make_message (identity_xml 32000)] else [])
          ++ (if okW 1 then [make_message device_list] else []),
          SessionEnd.crashed)) := by
  constructor
  · intro p client ks cuts okW okS okD hp
    exact handle_production_eq p client ks cuts okW okS okD hp
  · intro msg tail ks cuts okW okS h0 h1 hh
    have hb : diag_buf msg = some pack_h_one := by simp [diag_buf, hh]
    have := handle_diag_eq 32000 msg tail ks cuts okW okS false pack_h_one
      (by decide) h0 h1 hb
    simpa using this

/-- C10 witness: with both handshake writes failing, a console-port
session still runs the full streaming loop (its result is exactly the
streaming transcript), and a diagnostic session whose raw reply sendall
fails ends as crashed with only the (here absent) handshake frames
delivered. -/
theorem write_failure_semantics_witness :
    handle 32075 [] (fun _ => 1) (fun _ => [10]) (fun _ => false)
      (fun _ _ => true) true =
      (stream_loop (make_message (data_payload 32075)) (fun _ => 1)
        (fun _ => [10]) (fun _ _ => true) 0 100).map
        (fun r => (r.1,
          if r.2 then SessionEnd.normal else SessionEnd.writeFailed)) ∧
    handle 32000 (make_message kw_header ++ []) (fun _ => 1)
      (fun _ => []) (fun _ => false) (fun _ _ => true) false =
      some ([], SessionEnd.crashed) :=
  ⟨write_failure_semantics.1 32075 [] (fun _ => 1) (fun _ => [10])
    (fun _ => false) (fun _ _ => true) true (by decide),
   write_failure_semantics.2 kw_header [] (fun _ => 1) (fun _ => [])
    (fun _ => false) (fun _ _ => true) (by decide) (by decide)
    (by decide)⟩

end MockSDK
